import Mathlib

/-!
Verification of the metrics-mock core (src/main.go): header authorization
gate (MatchHeaders), variant resolution (GetVersion), synthetic value
generation (getValue) and handler construction (getHandlerFunc).

Modelling conventions:
* Go's `regexp.Match(pattern, value)` returns `(matched, err)`; it is
  abstracted here as an oracle `RegexOracle : String → String → Option Bool`
  where `none` models a compilation/evaluation error and `some b` models a
  successful (unanchored, substring-semantics) match returning `b`.
* Go's `url.Values` maps a parameter name to a list of values; a name that
  is absent from the query is modelled by the empty list (Go's parser never
  stores a key with an empty slice, so presence coincides with a non-empty
  list).
* `req.Header.Get` is case-insensitive in the header name and returns `""`
  for a missing header; `headerGet` models this over an association list.
* float64 fields are modelled by ℚ; the gonum Beta sampler (an external
  library) is abstracted as an oracle `sample : ℚ → ℚ → ℚ` taking the two
  shape parameters.
* `time.Now().Sub(start).Seconds()` is threaded in explicitly as the
  `elapsedSeconds` argument.
* The `panic` in getHandlerFunc's default branch is modelled as
  `Except.error`.
-/

namespace MetricsMock

/-- Oracle for Go `regexp.Match pat s`: `none` is a regex error, `some b`
the match verdict. -/
abbrev RegexOracle := String → String → Option Bool

/-- Param is a name-value pair representing name and value of an HTTP query
param (src/main.go, `Param`). -/
structure Param where
  Name : String
  Value : String
deriving DecidableEq

/-- MetricInfo provides information about the metric to be generated
(src/main.go, `MetricInfo`); float64 fields modelled by ℚ. The Go field
`Type` is named `MetricType` here because `Type` is reserved in Lean. -/
structure MetricInfo where
  MetricType : String
  Rate : ℚ
  Shift : ℚ
  Multiplier : ℚ
  Alpha : ℚ
  Beta : ℚ
deriving DecidableEq

/-- VersionInfo provides the param and metric information for a version
(src/main.go, `VersionInfo`). -/
structure VersionInfo where
  Params : List Param
  Metric : MetricInfo
deriving DecidableEq

/-- URIConf is the metrics gen configuration for a URI (src/main.go,
`URIConf`); the `Headers` map is modelled as an association list. -/
structure URIConf where
  Versions : List VersionInfo
  Headers : List (String × String)
  URI : String
  Provider : String
deriving DecidableEq

/-- The request data the core consumes: the parsed query (name → ordered
list of values, `[]` meaning the name is absent) and the header list. -/
structure Request where
  query : String → List String
  headers : List (String × String)

/-- Character-wise lowercasing, modelling the case-insensitivity of Go's
canonical MIME header keys. -/
def lowerStr (s : String) : String := ⟨s.data.map Char.toLower⟩

/-- Go `req.Header.Get key`: case-insensitive name lookup, first value,
`""` when the header is missing. -/
def headerGet (hs : List (String × String)) (key : String) : String :=
  match hs.find? (fun kv => lowerStr kv.1 == lowerStr key) with
  | some kv => kv.2
  | none => ""

/-- MatchHeaders ensures that the headers in URIConf match the headers in
the request (src/main.go lines 143-150): every configured
(name, expected) pair must satisfy `req.Header.Get name == expected`. -/
def MatchHeaders (u : URIConf) (req : Request) : Bool :=
  u.Headers.all (fun kv => headerGet req.headers kv.1 == kv.2)

/-- One constraint check inside GetVersion's inner loop (src/main.go lines
156-174): the query must have the parameter with a non-empty first value
and `regexp.Match` must succeed with a match; a regex error (`none`), a
non-match, absence, or an empty first value all leave the variant
unmatched. -/
def paramSat (rm : RegexOracle) (q : String → List String) (p : Param) : Bool :=
  match q p.Name with
  | [] => false
  | v :: _ =>
    if v.length > 0 then
      match rm p.Value v with
      | some true => true
      | _ => false
    else false

/-- The `found` flag computed by GetVersion's inner loop over one version's
params: true iff every param constraint is satisfied (`found` is only ever
lowered, so the loop computes the conjunction). -/
def versionMatches (rm : RegexOracle) (q : String → List String)
    (version : VersionInfo) : Bool :=
  version.Params.all (paramSat rm q)

/-- The outer loop of GetVersion over the configured versions: return the
first version whose constraints all hold. -/
def getVersionAux (rm : RegexOracle) (q : String → List String) :
    List VersionInfo → Option VersionInfo
  | [] => none
  | version :: rest =>
    if versionMatches rm q version then some version
    else getVersionAux rm q rest

/-- GetVersion finds the correct version in URIConf based on params in the
request or returns `none` if no matching version is found (src/main.go
lines 153-181). -/
def GetVersion (rm : RegexOracle) (u : URIConf) (req : Request) :
    Option VersionInfo :=
  getVersionAux rm req.query u.Versions

/-- getValue computes the synthetic metric value (src/main.go lines
96-110); `sample` abstracts `distuv.Beta{Alpha := a, Beta := b}.Rand()` and
`elapsedSeconds` abstracts `time.Now().Sub(start).Seconds()`. -/
def getValue (sample : ℚ → ℚ → ℚ) (elapsedSeconds : ℚ)
    (version : VersionInfo) : ℚ :=
  if version.Metric.MetricType == "counter" then
    elapsedSeconds * version.Metric.Rate
  else if version.Metric.MetricType == "gauge" then
    let beta := sample ((elapsedSeconds + 1) * version.Metric.Alpha)
      ((elapsedSeconds + 1) * version.Metric.Beta)
    version.Metric.Shift + beta * version.Metric.Multiplier
  else
    21.7639

/-- The three request outcomes the Prometheus handler can produce
(src/main.go lines 64-89): 401 "headers are not matching", 500 "cannot
find any matching version", or a 200 carrying the computed value. -/
inductive Outcome where
  | AuthorizationFailure
  | NoVariantMatch
  | Value (x : ℚ)
deriving DecidableEq

/-- The request handler built for provider "Prometheus" (src/main.go lines
64-89): check MatchHeaders first; only if it passes run GetVersion; on a
match return the computed value. -/
def prometheusHandler (rm : RegexOracle) (sample : ℚ → ℚ → ℚ)
    (elapsedSeconds : ℚ) (conf : URIConf) (req : Request) : Outcome :=
  if !MatchHeaders conf req then
    Outcome.AuthorizationFailure
  else
    match GetVersion rm conf req with
    | some version => Outcome.Value (getValue sample elapsedSeconds version)
    | none => Outcome.NoVariantMatch

/-- getHandlerFunc (src/main.go lines 61-94): for provider "Prometheus"
return the handler; for any other provider the Go code panics at startup,
modelled as `Except.error` with the panic message. -/
def getHandlerFunc (rm : RegexOracle) (sample : ℚ → ℚ → ℚ)
    (elapsedSeconds : ℚ) (conf : URIConf) :
    Except String (Request → Outcome) :=
  if conf.Provider == "Prometheus" then
    Except.ok (prometheusHandler rm sample elapsedSeconds conf)
  else
    Except.error ("unknown provider: " ++ conf.Provider)

/-! Concrete fixtures used by the witnesses. -/

/-- Oracle under which every pattern matches every value. -/
def rmAll : RegexOracle := fun _ _ => some true

/-- Oracle under which every regex evaluation errors (models a pattern that
fails to compile). -/
def rmFail : RegexOracle := fun _ _ => none

/-- Sampler that always returns 1/2 (a legal Beta draw). -/
def sampleHalf : ℚ → ℚ → ℚ := fun _ _ => 1/2

/-- A query with no parameters at all. -/
def emptyQuery : String → List String := fun _ => []

/-- A request with no query parameters and no headers. -/
def reqEmpty : Request := ⟨emptyQuery, []⟩

/-- A counter metric with rate 2.0. -/
def counterModel : MetricInfo := ⟨"counter", 2, 0, 0, 0, 0⟩

/-- A gauge metric with shift 0, multiplier 1, alpha 1, beta 1. -/
def gaugeModel : MetricInfo := ⟨"gauge", 0, 0, 1, 1, 1⟩

/-- An unconstrained version carrying the counter metric. -/
def vCounter : VersionInfo := ⟨[], counterModel⟩

/-- An unconstrained version carrying the gauge metric. -/
def vGauge : VersionInfo := ⟨[], gaugeModel⟩

/-- A Prometheus endpoint with two versions that both match every
request. -/
def confTwo : URIConf := ⟨[vCounter, vGauge], [], "/metrics", "Prometheus"⟩

/-- An unconstrained version with an unrecognized metric kind. -/
def vBad : VersionInfo := ⟨[], ⟨"histogram", 1, 2, 3, 4, 5⟩⟩

/-- Stepping lemma: the version scan skips a prefix of non-matching
versions and stops at the first matching one, never consulting the tail. -/
theorem getVersionAux_append (rm : RegexOracle) (q : String → List String)
    (l1 l2 : List VersionInfo) (v : VersionInfo)
    (hnone : ∀ w ∈ l1, versionMatches rm q w = false)
    (hv : versionMatches rm q v = true) :
    getVersionAux rm q (l1 ++ v :: l2) = some v := by
  induction l1 with
  | nil => simp [getVersionAux, hv]
  | cons w ws ih =>
    have hw := hnone w (List.mem_cons_self w ws)
    simp only [List.cons_append, getVersionAux, hw, Bool.false_eq_true,
      if_false]
    exact ih fun x hx => hnone x (List.mem_cons_of_mem w hx)

/-- C1: if the versions split as a prefix of non-matching versions followed
by a matching version `v` and an arbitrary tail, GetVersion returns `v` —
so when several versions match, the earliest in declaration order wins, and
the result does not depend on the tail after the first match (no further
scanning). -/
theorem GetVersion_first_match_wins (rm : RegexOracle) (u : URIConf)
    (req : Request) (l1 l2 : List VersionInfo) (v : VersionInfo)
    (hsplit : u.Versions = l1 ++ v :: l2)
    (hnone : ∀ w ∈ l1, versionMatches rm req.query w = false)
    (hv : versionMatches rm req.query v = true) :
    GetVersion rm u req = some v := by
  unfold GetVersion
  rw [hsplit]
  exact getVersionAux_append rm req.query l1 l2 v hnone hv

/-- Witness for C1: both versions of `confTwo` match the empty request and
the first one is returned. -/
theorem GetVersion_first_match_wins_witness :
    GetVersion rmAll confTwo reqEmpty = some vCounter :=
  GetVersion_first_match_wins rmAll confTwo reqEmpty [] [vGauge] vCounter
    rfl (fun w hw => absurd hw (List.not_mem_nil w)) rfl

/-- C2: a version matches iff all of its param constraints are satisfied
(in particular an empty constraint list matches unconditionally), and one
constraint is satisfied iff the query carries the parameter with a
non-empty first value on which the regex oracle reports a successful match
— absence, an empty first value, a regex error and a non-match all leave
it unsatisfied. -/
theorem variant_and_constraint_semantics (rm : RegexOracle)
    (q : String → List String) (ver : VersionInfo) (p : Param) :
    (versionMatches rm q ver = true ↔
      ∀ pp ∈ ver.Params, paramSat rm q pp = true)
    ∧ (ver.Params = [] → versionMatches rm q ver = true)
    ∧ (paramSat rm q p = true ↔
        ∃ x xs, q p.Name = x :: xs ∧ 0 < x.length ∧
          rm p.Value x = some true) := by
  refine ⟨by simp [versionMatches, List.all_eq_true], ?_, ?_⟩
  · intro h
    simp [versionMatches, h]
  · cases hq : q p.Name with
    | nil => simp [paramSat, hq]
    | cons x xs =>
      by_cases hx : 0 < x.length
      · cases hr : rm p.Value x with
        | none => simp [paramSat, hq, hx, hr]
        | some b =>
          cases b with
          | false => simp [paramSat, hq, hx, hr]
          | true =>
            have hps : paramSat rm q p = true := by
              simp [paramSat, hq, hx, hr]
            simp only [hps, true_iff]
            exact ⟨x, xs, rfl, hx, hr⟩
      · simp [paramSat, hq, hx]

/-- Witness for C2: pattern `gr` against first value `green` (oracle says
match) satisfies the constraint. -/
theorem variant_and_constraint_semantics_witness :
    paramSat rmAll (fun _ => ["green"]) ⟨"color", "gr"⟩ = true :=
  (variant_and_constraint_semantics rmAll (fun _ => ["green"]) vCounter
    ⟨"color", "gr"⟩).2.2.mpr ⟨"green", [], rfl, by decide, rfl⟩

/-- A Prometheus endpoint guarded by one required header. -/
def confAuth : URIConf :=
  ⟨[vCounter], [("x-token", "secret")], "/auth", "Prometheus"⟩

/-- A request carrying the header `confAuth` requires. -/
def reqAuth : Request := ⟨emptyQuery, [("x-token", "secret")]⟩

/-- The header gate passes exactly when every configured pair is matched by
the request's headers. -/
theorem MatchHeaders_eq_true_iff (u : URIConf) (req : Request) :
    MatchHeaders u req = true ↔
      ∀ kv ∈ u.Headers, headerGet req.headers kv.1 = kv.2 := by
  simp [MatchHeaders, List.all_eq_true]

/-- One mismatched required header forces the gate to fail. -/
theorem MatchHeaders_eq_false_of_mismatch (u : URIConf) (req : Request)
    (k v : String) (hkv : (k, v) ∈ u.Headers)
    (hne : headerGet req.headers k ≠ v) : MatchHeaders u req = false := by
  cases h : MatchHeaders u req with
  | false => rfl
  | true => exact absurd ((MatchHeaders_eq_true_iff u req).mp h (k, v) hkv) hne

/-- A header name that occurs in no entry of the list looks up to `""`. -/
theorem headerGet_eq_empty_of_absent (hs : List (String × String))
    (k : String) (habs : ∀ kv ∈ hs, lowerStr kv.1 ≠ lowerStr k) :
    headerGet hs k = "" := by
  unfold headerGet
  have hfind : hs.find? (fun kv => lowerStr kv.1 == lowerStr k) = none := by
    rw [List.find?_eq_none]
    intro kv hkv
    simp [habs kv hkv]
  rw [hfind]

/-- C3: MatchHeaders returns true iff every configured (name, expected)
pair is matched exactly (case-sensitive value comparison) by the request;
an empty header map always authorizes, and any single required header
whose request value differs forces the result to false. -/
theorem MatchHeaders_characterization (u : URIConf) (req : Request) :
    (MatchHeaders u req = true ↔
      ∀ kv ∈ u.Headers, headerGet req.headers kv.1 = kv.2)
    ∧ (u.Headers = [] → MatchHeaders u req = true)
    ∧ (∀ k v, (k, v) ∈ u.Headers → headerGet req.headers k ≠ v →
        MatchHeaders u req = false) := by
  refine ⟨MatchHeaders_eq_true_iff u req, ?_, ?_⟩
  · intro h
    simp [MatchHeaders, h]
  · intro k v hkv hne
    exact MatchHeaders_eq_false_of_mismatch u req k v hkv hne

/-- Witness for C3: a request carrying the exact required header value
passes the gate. -/
theorem MatchHeaders_characterization_witness :
    MatchHeaders confAuth reqAuth = true :=
  (MatchHeaders_characterization confAuth reqAuth).1.mpr (by decide)

/-- C9: the gate cannot distinguish a required header that is absent from
one present with value `""` (prepending an explicit empty entry leaves the
verdict unchanged), and when a required header is absent from the request
the gate passes iff its expected value is the empty string; for a non-empty
expected value, absence and any wrong value are equally disqualifying. -/
theorem MatchHeaders_absent_eq_empty (u : URIConf)
    (q : String → List String) (hs : List (String × String)) (k ev : String)
    (habs : ∀ kv ∈ hs, lowerStr kv.1 ≠ lowerStr k) :
    (MatchHeaders u ⟨q, (k, "") :: hs⟩ = MatchHeaders u ⟨q, hs⟩)
    ∧ (u.Headers = [(k, ev)] →
        (MatchHeaders u ⟨q, hs⟩ = true ↔ ev = ""))
    ∧ (ev ≠ "" → (k, ev) ∈ u.Headers → MatchHeaders u ⟨q, hs⟩ = false)
    ∧ (∀ w hs2, (k, ev) ∈ u.Headers → headerGet hs2 k = w → w ≠ ev →
        MatchHeaders u ⟨q, hs2⟩ = false) := by
  have hget : headerGet hs k = "" := headerGet_eq_empty_of_absent hs k habs
  refine ⟨?_, ?_, ?_, ?_⟩
  · have hpt : ∀ key, headerGet ((k, "") :: hs) key = headerGet hs key := by
      intro key
      unfold headerGet
      by_cases hk : lowerStr k = lowerStr key
      · have hfind :
            hs.find? (fun kv => lowerStr kv.1 == lowerStr key) = none := by
          rw [List.find?_eq_none]
          intro kv hkv
          have := habs kv hkv
          rw [hk] at this
          simp [this]
        rw [List.find?_cons_of_pos _ (by simp [hk]), hfind]
      · rw [List.find?_cons_of_neg _ (by simp [hk])]
    have hfun :
        (fun kv : String × String => headerGet ((k, "") :: hs) kv.1 == kv.2)
          = fun kv : String × String => headerGet hs kv.1 == kv.2 :=
      funext fun kv => by rw [hpt]
    simp only [MatchHeaders]
    rw [hfun]
  · intro hH
    constructor
    · intro h
      have h2 : headerGet hs k = ev :=
        (MatchHeaders_eq_true_iff u ⟨q, hs⟩).mp h (k, ev)
          (by rw [hH]; exact List.mem_singleton.mpr rfl)
      rw [hget] at h2
      exact h2.symm
    · intro hev
      rw [MatchHeaders_eq_true_iff]
      intro kv hkv
      rw [hH] at hkv
      have hkv2 : kv = (k, ev) := List.mem_singleton.mp hkv
      subst hkv2
      show headerGet hs k = ev
      rw [hget, hev]
  · intro hev hkv
    exact MatchHeaders_eq_false_of_mismatch u ⟨q, hs⟩ k ev hkv
      (by rw [hget]; exact fun h => hev h.symm)
  · intro w hs2 hkv hw hne
    exact MatchHeaders_eq_false_of_mismatch u ⟨q, hs2⟩ k ev hkv
      (by rw [hw]; exact hne)

/-- Witness for C9: `confAuth` expects `x-token: secret` (non-empty), so a
request with no headers at all fails the gate. -/
theorem MatchHeaders_absent_eq_empty_witness :
    MatchHeaders confAuth reqEmpty = false :=
  (MatchHeaders_absent_eq_empty confAuth emptyQuery [] "x-token" "secret"
    (by simp)).2.2.1 (by decide) (by decide)

/-- C4: the handler yields exactly one of the three outcomes, the header
gate is evaluated first, and an unauthorized request yields
AuthorizationFailure independently of the regex oracle and of the
configured versions — the variant resolver is never consulted. -/
theorem prometheusHandler_outcomes (rm : RegexOracle)
    (sample : ℚ → ℚ → ℚ) (t : ℚ) (conf : URIConf) (req : Request) :
    (MatchHeaders conf req = false →
      prometheusHandler rm sample t conf req = Outcome.AuthorizationFailure
      ∧ ∀ rm2 vs, prometheusHandler rm2 sample t
          { conf with Versions := vs } req = Outcome.AuthorizationFailure)
    ∧ (MatchHeaders conf req = true → GetVersion rm conf req = none →
        prometheusHandler rm sample t conf req = Outcome.NoVariantMatch)
    ∧ (∀ v, MatchHeaders conf req = true → GetVersion rm conf req = some v →
        prometheusHandler rm sample t conf req
          = Outcome.Value (getValue sample t v)) := by
  refine ⟨?_, ?_, ?_⟩
  · intro h
    constructor
    · simp [prometheusHandler, h]
    · intro rm2 vs
      have h2 : MatchHeaders { conf with Versions := vs } req = false := h
      simp [prometheusHandler, h2]
  · intro h hg
    simp [prometheusHandler, h, hg]
  · intro v h hg
    simp [prometheusHandler, h, hg]

/-- Witness for C4: a request missing the required header is rejected by
the handler. -/
theorem prometheusHandler_outcomes_witness :
    prometheusHandler rmAll sampleHalf 0 confAuth reqEmpty
      = Outcome.AuthorizationFailure :=
  ((prometheusHandler_outcomes rmAll sampleHalf 0 confAuth reqEmpty).1
    (by decide)).1

/-- C5: for a counter metric the value is elapsedSeconds * rate, and the
gauge-only fields (shift, multiplier, alpha, beta) as well as the sampler
have no effect on the result. -/
theorem getValue_counter (sample : ℚ → ℚ → ℚ) (t : ℚ) (v : VersionInfo)
    (h : v.Metric.MetricType = "counter") :
    getValue sample t v = t * v.Metric.Rate
    ∧ ∀ sample2 sh mu al be,
        getValue sample2 t
          ⟨v.Params, ⟨"counter", v.Metric.Rate, sh, mu, al, be⟩⟩
          = t * v.Metric.Rate := by
  constructor
  · simp [getValue, h]
  · intro sample2 sh mu al be
    simp [getValue]

/-- Witness for C5: rate 2.0 at elapsedSeconds 10 yields exactly 20.0. -/
theorem getValue_counter_witness : getValue sampleHalf 10 vCounter = 20 := by
  rw [(getValue_counter sampleHalf 10 vCounter rfl).1]
  norm_num [vCounter, counterModel]

/-- C6: for a gauge metric the value is shift + sample * multiplier where
the sample is drawn with shape parameters (elapsedSeconds + 1) * alpha and
(elapsedSeconds + 1) * beta; for positive alpha and beta these shapes are
strictly positive for every elapsedSeconds ≥ 0 (including 0), and whenever
the sampler's draws lie in [0, 1], shift 0 and multiplier 1 give a value in
[0, 1]. -/
theorem getValue_gauge (sample : ℚ → ℚ → ℚ) (t : ℚ) (v : VersionInfo)
    (hk : v.Metric.MetricType = "gauge") (ht : 0 ≤ t) :
    getValue sample t v = v.Metric.Shift
        + sample ((t + 1) * v.Metric.Alpha) ((t + 1) * v.Metric.Beta)
          * v.Metric.Multiplier
    ∧ (0 < v.Metric.Alpha → 0 < (t + 1) * v.Metric.Alpha)
    ∧ (0 < v.Metric.Beta → 0 < (t + 1) * v.Metric.Beta)
    ∧ ((∀ a b, 0 ≤ sample a b ∧ sample a b ≤ 1) →
        v.Metric.Shift = 0 → v.Metric.Multiplier = 1 →
        0 ≤ getValue sample t v ∧ getValue sample t v ≤ 1) := by
  have ht1 : (0 : ℚ) < t + 1 := by linarith
  have hval : getValue sample t v = v.Metric.Shift
      + sample ((t + 1) * v.Metric.Alpha) ((t + 1) * v.Metric.Beta)
        * v.Metric.Multiplier := by
    simp [getValue, hk]
  refine ⟨hval, fun ha => mul_pos ht1 ha, fun hb => mul_pos ht1 hb, ?_⟩
  intro hrange hsh hmu
  obtain ⟨h0, h1⟩ :=
    hrange ((t + 1) * v.Metric.Alpha) ((t + 1) * v.Metric.Beta)
  rw [hval, hsh, hmu, mul_one, zero_add]
  exact ⟨h0, h1⟩

/-- Witness for C6: the gauge with alpha 1, beta 1, shift 0, multiplier 1
yields a value in [0, 1] under a sampler that returns 1/2. -/
theorem getValue_gauge_witness :
    0 ≤ getValue sampleHalf 0 vGauge ∧ getValue sampleHalf 0 vGauge ≤ 1 :=
  (getValue_gauge sampleHalf 0 vGauge rfl le_rfl).2.2.2
    (fun a b => ⟨by norm_num [sampleHalf], by norm_num [sampleHalf]⟩)
    rfl rfl

/-- C7: for any metric kind other than counter and gauge, getValue returns
the fixed fallback 21.7639, whatever the other fields and the sampler are;
when such a version is the one resolved for an authorized request the
handler still produces a numeric Value outcome, not an error outcome. -/
theorem getValue_fallback (sample : ℚ → ℚ → ℚ) (t : ℚ) (v : VersionInfo)
    (h1 : v.Metric.MetricType ≠ "counter")
    (h2 : v.Metric.MetricType ≠ "gauge") :
    getValue sample t v = 21.7639
    ∧ (∀ sample2 t2 r sh mu al be,
        getValue sample2 t2
          ⟨v.Params, ⟨v.Metric.MetricType, r, sh, mu, al, be⟩⟩ = 21.7639)
    ∧ (∀ rm conf req, MatchHeaders conf req = true →
        GetVersion rm conf req = some v →
        prometheusHandler rm sample t conf req = Outcome.Value 21.7639) := by
  have hval : getValue sample t v = 21.7639 := by
    simp [getValue, h1, h2]
  refine ⟨hval, ?_, ?_⟩
  · intro sample2 t2 r sh mu al be
    simp [getValue, h1, h2]
  · intro rm conf req hm hg
    simp [prometheusHandler, hm, hg, hval]

/-- Witness for C7: a version whose metric kind is `histogram` produces
21.7639. -/
theorem getValue_fallback_witness : getValue sampleHalf 0 vBad = 21.7639 :=
  (getValue_fallback sampleHalf 0 vBad (by decide) (by decide)).1

/-- A query in which every parameter has the single value `green`. -/
def greenQuery : String → List String := fun _ => ["green"]

/-- A constraint whose pattern `(` fails to compile as a regex. -/
def pBad : Param := ⟨"color", "("⟩

/-- A version whose only constraint carries the malformed pattern. -/
def verBad : VersionInfo := ⟨[pBad], gaugeModel⟩

/-- An endpoint whose first version has the malformed pattern, followed by
an unconstrained version. -/
def confBadPat : URIConf := ⟨[verBad, vCounter], [], "/p", "Prometheus"⟩

/-- A request whose query is `greenQuery` and that has no headers. -/
def reqGreen : Request := ⟨greenQuery, []⟩

/-- C8: when the oracle reports a regex error for a constraint's pattern on
every input, that constraint is never satisfied, the version containing it
never matches, and resolution simply continues with the remaining versions
— GetVersion still returns normally (an Option, never a request-level
error). -/
theorem pattern_error_disqualifies (rm : RegexOracle)
    (q : String → List String) (p : Param)
    (hbad : ∀ s, rm p.Value s = none)
    (ver : VersionInfo) (hp : p ∈ ver.Params)
    (u : URIConf) (req : Request) (rest : List VersionInfo)
    (hu : u.Versions = ver :: rest) (hq : req.query = q) :
    paramSat rm q p = false
    ∧ versionMatches rm q ver = false
    ∧ GetVersion rm u req = getVersionAux rm q rest := by
  have hps : paramSat rm q p = false := by
    cases hqn : q p.Name with
    | nil => simp [paramSat, hqn]
    | cons x xs =>
      by_cases hx : 0 < x.length
      · simp [paramSat, hqn, hx, hbad x]
      · simp [paramSat, hqn, hx]
  have hvm : versionMatches rm q ver = false := by
    cases h : versionMatches rm q ver with
    | false => rfl
    | true =>
      exfalso
      have h2 : ver.Params.all (paramSat rm q) = true := h
      have h3 := List.all_eq_true.mp h2 p hp
      rw [hps] at h3
      exact Bool.false_ne_true h3
  refine ⟨hps, hvm, ?_⟩
  unfold GetVersion
  rw [hu, hq]
  simp [getVersionAux, hvm]

/-- Witness for C8: with the erroring oracle the malformed first version is
skipped and resolution proceeds to the tail versions. -/
theorem pattern_error_disqualifies_witness :
    GetVersion rmFail confBadPat reqGreen
      = getVersionAux rmFail greenQuery [vCounter] :=
  (pattern_error_disqualifies rmFail greenQuery pBad (fun _ => rfl) verBad
    (by decide) confBadPat reqGreen [vCounter] rfl rfl).2.2

/-- An endpoint whose provider tag is not `Prometheus`. -/
def confOther : URIConf := ⟨[], [], "/o", "Graphite"⟩

/-- C10: getHandlerFunc panics (modelled as an error) on every provider tag
other than exactly "Prometheus", and returns the handler without panicking
exactly when the provider is "Prometheus". -/
theorem getHandlerFunc_provider (rm : RegexOracle) (sample : ℚ → ℚ → ℚ)
    (t : ℚ) (conf : URIConf) :
    (conf.Provider ≠ "Prometheus" →
      getHandlerFunc rm sample t conf
        = Except.error ("unknown provider: " ++ conf.Provider))
    ∧ (conf.Provider = "Prometheus" →
      getHandlerFunc rm sample t conf
        = Except.ok (prometheusHandler rm sample t conf)) := by
  constructor
  · intro h
    simp [getHandlerFunc, h]
  · intro h
    simp [getHandlerFunc, h]

/-- Witness for C10: provider tag `Graphite` makes handler construction
fail with the panic message. -/
theorem getHandlerFunc_provider_witness :
    getHandlerFunc rmAll sampleHalf 0 confOther
      = Except.error ("unknown provider: " ++ confOther.Provider) :=
  (getHandlerFunc_provider rmAll sampleHalf 0 confOther).1 (by decide)

end MetricsMock
